import Mathlib

/-!
Shallow embedding of the vibration-telemetry node `mqtt_MPU6050.ino` from the
repository greathtj/mySensor (with the connectivity boilerplate shared by the
other sketches).

Modelling conventions:
* C `double` values are embedded as exact rationals `ℚ` (reals `ℝ` appear only
  where the source takes a square root, in `calculate_rms`).
* `millis()` timestamps and C `long`/`int` values are embedded as `ℤ`.
* The blocking retry loops (`setup_wifi`, `reconnect`, the sensor-init halt
  loop in `setup`) are embedded as fuel-indexed functions returning `none`
  while the loop is still running; `none` for every fuel value models a loop
  that never exits.  The outcome of each connection attempt is an input
  stream `ℕ → Bool`.
* The windowing, FFT and magnitude computation inside `perform_fft` are calls
  into the external arduinoFFT library (not part of this repository); the
  embedding of the peak search takes the resulting magnitude array `vReal`
  as an input function `ℕ → ℚ`.  The detrending preamble of `perform_fft`
  is repository code and is embedded as `detrend`.
-/

namespace MySensor

/-- `const uint16_t samples = 128;` -/
def samples : ℕ := 128

/-- The publish-gate minimum interval used in `loop()`: `now - lastMsg > 5000`. -/
def minIntervalMs : ℤ := 5000

/-- The MQTT client id / topic prefix used by the sketch (`esp32_htj`). -/
def deviceId : String := "esp32_htj"

/-- Embedding of `calculate_sampling_rate(int num_points, long duration_ms)`:
returns `0.0` when `duration_ms == 0`, otherwise
`num_points / (duration_ms / 1000.0)`. -/
def calculate_sampling_rate (num_points : ℤ) (duration_ms : ℤ) : ℚ :=
  if duration_ms = 0 then 0
  else (num_points : ℚ) / ((duration_ms : ℚ) / 1000)

/-- Embedding of `calculate_rms(const float* data_array, int num_points)`:
guard `num_points == 0`, sum the squares of the raw (non-detrended) samples,
divide by the count and take the square root. -/
noncomputable def calculate_rms (data : List ℚ) : ℝ :=
  if data.length = 0 then 0
  else Real.sqrt ((((data.map (fun x => x * x)).sum / (data.length : ℚ)) : ℚ) : ℝ)

/-- Embedding of the detrending preamble of `perform_fft` (steps 1 and 2):
compute the mean of the `samples` entries and subtract it from each sample. -/
def detrend (data : List ℚ) : List ℚ :=
  data.map (fun x => x - data.sum / (samples : ℚ))

/-- The body of the peak-search loop of `perform_fft`, folded over the scanned
indices: `if (vReal[i] > peak_magnitude) { peak_magnitude = vReal[i]; peak_index = i; }`.
The accumulator is the pair `(peak_index, peak_magnitude)`. -/
def peakFold (mags : ℕ → ℚ) (acc : ℕ × ℚ) (l : List ℕ) : ℕ × ℚ :=
  l.foldl (fun a i => if mags i > a.2 then (i, mags i) else a) acc

/-- Embedding of step 4 of `perform_fft`: scan bins `1 .. samples/2 - 1` of the
magnitude array with initial accumulator `peak_index = 0`, `peak_magnitude = 0.0`. -/
def peakSearch (mags : ℕ → ℚ) : ℕ × ℚ :=
  peakFold mags (0, 0) (List.range' 1 (samples / 2 - 1))

/-- Embedding of step 5 of `perform_fft`:
`*frequency = ((double)peak_index * actual_sampling_rate) / samples;`. -/
def dominantFrequency (mags : ℕ → ℚ) (actual_sampling_rate : ℚ) : ℚ :=
  ((peakSearch mags).1 : ℚ) * actual_sampling_rate / (samples : ℚ)

/-- The publish-gate test in `loop()`: `if (now - lastMsg > 5000)`. -/
def gateAccepts (now lastMsg : ℤ) : Bool := decide (now - lastMsg > minIntervalMs)

/-- Embedding of `dtostrf(value, 1, prec, buf)`: render the value as a decimal
string with exactly `prec` fractional digits (rounding to nearest). -/
def dtostrf (x : ℚ) (prec : ℕ) : String :=
  let scaled : ℤ := round (x * (10 : ℚ) ^ prec)
  let sign : String := if scaled < 0 then "-" else ""
  let a : ℕ := scaled.natAbs
  let ip : ℕ := a / 10 ^ prec
  let fracDigits : String := toString (a % 10 ^ prec)
  let pad : String := String.mk (List.replicate (prec - fracDigits.length) (Char.ofNat 48))
  if prec = 0 then sign ++ toString ip
  else sign ++ toString ip ++ "." ++ pad ++ fracDigits

/-- The six `client.publish` calls of the accepted branch of `loop()`, in
source order: frequencies with 2 fractional digits, RMS values with 4. -/
def publishBatch (freq_x freq_y freq_z rms_x rms_y rms_z : ℚ) : List (String × String) :=
  [("esp32_htj/freq_x", dtostrf freq_x 2),
   ("esp32_htj/freq_y", dtostrf freq_y 2),
   ("esp32_htj/freq_z", dtostrf freq_z 2),
   ("esp32_htj/rms_x", dtostrf rms_x 4),
   ("esp32_htj/rms_y", dtostrf rms_y 4),
   ("esp32_htj/rms_z", dtostrf rms_z 4)]

/-- Embedding of the publish section at the end of `loop()`: when the gate
accepts, `lastMsg` is set to `now` and the whole batch is published; otherwise
the state is unchanged and nothing is published.  Returns the new `lastMsg`
and the list of `(topic, payload)` pairs handed to `client.publish`. -/
def loopPublish (now lastMsg : ℤ) (freq_x freq_y freq_z rms_x rms_y rms_z : ℚ) :
    ℤ × List (String × String) :=
  if gateAccepts now lastMsg then
    (now, publishBatch freq_x freq_y freq_z rms_x rms_y rms_z)
  else (lastMsg, [])

/-- One publish attempt viewed as a state transition of the gate alone:
returns the new `lastMsg` and whether the batch was accepted. -/
def offerStep (lastMsg now : ℤ) : ℤ × Bool :=
  if gateAccepts now lastMsg then (now, true) else (lastMsg, false)

/-- A sequence of publish attempts at the given times, threading `lastMsg`
through `offerStep`; returns the acceptance outcome of each attempt. -/
def runOffers (lastMsg : ℤ) : List ℤ → List Bool
  | [] => []
  | t :: ts => (offerStep lastMsg t).2 :: runOffers (offerStep lastMsg t).1 ts

/-- Observable side effects of the connectivity loops. -/
inductive Action where
  | delayMs (ms : ℕ)
  | connectAttempt
  | subscribe (topic : String)
  deriving DecidableEq, Repr

/-- Embedding of `reconnect()`: attempt `k` of `client.connect("esp32_htj")`
has outcome `success k`.  On success the sketch subscribes to
`esp32_htj/output` and the `while (!client.connected())` loop exits; on
failure it delays 5000 ms and retries.  `none` means the loop is still
running after `fuel` iterations. -/
def reconnectTrace (success : ℕ → Bool) : ℕ → ℕ → Option (List Action)
  | 0, _ => none
  | fuel + 1, k =>
    if success k then
      some [Action.connectAttempt, Action.subscribe "esp32_htj/output"]
    else
      (reconnectTrace success fuel (k + 1)).map
        (fun rest => Action.connectAttempt :: Action.delayMs 5000 :: rest)

/-- Embedding of `setup_wifi()`: the `while (WiFi.status() != WL_CONNECTED)`
loop checks the link (outcome `wifiUp k` at check `k`) and delays 500 ms
between checks; `none` means the loop is still running after `fuel`
iterations. -/
def setupWifiTrace (wifiUp : ℕ → Bool) : ℕ → ℕ → Option (List Action)
  | 0, _ => none
  | fuel + 1, k =>
    if wifiUp k then some []
    else
      (setupWifiTrace wifiUp fuel (k + 1)).map
        (fun rest => Action.delayMs 500 :: rest)

/-- Embedding of `while (1) { delay(10); }` in `setup`: never returns,
whatever the fuel. -/
def haltLoop : ℕ → Option Unit
  | 0 => none
  | fuel + 1 => haltLoop fuel

/-- Embedding of the sensor-init gate in `setup`: if `mpu.begin()` succeeded
the rest of `setup` proceeds (`some ()`); otherwise the sketch enters the
permanent halt loop and `setup` never completes, so `loop()` is never
entered and `mpu.begin()` is never called again. -/
def setupSensorGate (mpuOk : Bool) (fuel : ℕ) : Option Unit :=
  if mpuOk then some () else haltLoop fuel

/-! ### Loop-invariant lemmas for the peak-search fold -/

theorem peakFold_nil (mags : ℕ → ℚ) (acc : ℕ × ℚ) : peakFold mags acc [] = acc := rfl

theorem peakFold_cons (mags : ℕ → ℚ) (acc : ℕ × ℚ) (i : ℕ) (l : List ℕ) :
    peakFold mags acc (i :: l) =
      peakFold mags (if mags i > acc.2 then (i, mags i) else acc) l := rfl

/-- Either the fold leaves the accumulator untouched, or it returns a strictly
larger magnitude attained at one of the scanned indices. -/
theorem peakFold_eq_or (mags : ℕ → ℚ) (l : List ℕ) (acc : ℕ × ℚ) :
    peakFold mags acc l = acc ∨
      (acc.2 < (peakFold mags acc l).2 ∧ (peakFold mags acc l).1 ∈ l ∧
        (peakFold mags acc l).2 = mags (peakFold mags acc l).1) := by
  induction l generalizing acc with
  | nil => exact Or.inl rfl
  | cons i l ih =>
    rw [peakFold_cons]
    by_cases h : mags i > acc.2
    · rw [if_pos h]
      rcases ih ((i, mags i)) with h1 | ⟨h1, h2, h3⟩
      · rw [h1]
        exact Or.inr ⟨h, List.mem_cons_self i l, rfl⟩
      · exact Or.inr ⟨lt_trans h h1, List.mem_cons_of_mem i h2, h3⟩
    · rw [if_neg h]
      rcases ih acc with h1 | ⟨h1, h2, h3⟩
      · exact Or.inl h1
      · exact Or.inr ⟨h1, List.mem_cons_of_mem i h2, h3⟩

/-- The final peak magnitude dominates the starting accumulator and every
scanned magnitude. -/
theorem peakFold_le (mags : ℕ → ℚ) (l : List ℕ) (acc : ℕ × ℚ) :
    acc.2 ≤ (peakFold mags acc l).2 ∧ ∀ i ∈ l, mags i ≤ (peakFold mags acc l).2 := by
  induction l generalizing acc with
  | nil => exact ⟨le_refl _, by simp⟩
  | cons i l ih =>
    rw [peakFold_cons]
    by_cases h : mags i > acc.2
    · rw [if_pos h]
      rcases ih ((i, mags i)) with ⟨h1, h2⟩
      refine ⟨le_trans (le_of_lt h) h1, ?_⟩
      intro j hj
      rcases List.mem_cons.mp hj with rfl | hj
      · exact h1
      · exact h2 j hj
    · rw [if_neg h]
      rcases ih acc with ⟨h1, h2⟩
      refine ⟨h1, ?_⟩
      intro j hj
      rcases List.mem_cons.mp hj with rfl | hj
      · exact le_trans (le_of_not_lt h) h1
      · exact h2 j hj

/-- First-maximum tie-breaking over a contiguous index range: if the fold moved
away from the initial accumulator, then every index of the range that lies
strictly before the returned peak index has magnitude strictly below the
returned peak magnitude. -/
theorem peakFold_first (mags : ℕ → ℚ) (n : ℕ) :
    ∀ (start : ℕ) (acc : ℕ × ℚ),
      peakFold mags acc (List.range' start n) ≠ acc →
      ∀ j, start ≤ j → j < (peakFold mags acc (List.range' start n)).1 →
        mags j < (peakFold mags acc (List.range' start n)).2 := by
  induction n with
  | zero => intro start acc hne; exact absurd rfl hne
  | succ n ih =>
    intro start acc hne j hj1 hj2
    rw [List.range'_succ] at hne hj2 ⊢
    rw [peakFold_cons] at hne hj2 ⊢
    by_cases h : mags start > acc.2
    · rw [if_pos h] at hne hj2 ⊢
      by_cases hmoved : peakFold mags ((start, mags start)) (List.range' (start + 1) n)
          = ((start, mags start))
      · rw [hmoved] at hj2
        have hj2' : j < start := hj2
        omega
      · rcases Nat.eq_or_lt_of_le hj1 with rfl | hj1
        · rcases peakFold_eq_or mags (List.range' (start + 1) n) ((start, mags start)) with
            hcontra | ⟨hlt, _, _⟩
          · exact absurd hcontra hmoved
          · exact hlt
        · exact ih (start + 1) ((start, mags start)) hmoved j hj1 hj2
    · rw [if_neg h] at hne hj2 ⊢
      rcases Nat.eq_or_lt_of_le hj1 with rfl | hj1
      · rcases peakFold_eq_or mags (List.range' (start + 1) n) acc with hcontra | ⟨hlt, _, _⟩
        · exact absurd hcontra hne
        · exact lt_of_le_of_lt (le_of_not_lt h) hlt
      · exact ih (start + 1) acc hne j hj1 hj2

/-! ### Claim theorems: publish gate -/

/-- C1 counterexample: the gate condition is `now - lastMsg > 5000`, strict.
At `now = 5000`, `lastMsg = 0` we have `now - lastMsg >= 5000` (the claimed
acceptance condition holds) yet the gate rejects; moreover two offers at
`t = 0` and `t = 5000` starting from the initial `lastMsg = 0` are both
dropped, not both accepted. -/
theorem gate_ge_boundary_counterexample :
    ((5000 : ℤ) - 0 ≥ minIntervalMs) ∧ gateAccepts 5000 0 = false ∧
      runOffers 0 [0, 5000] = [false, false] := by decide

/-- C1 (amended): a publish attempt is accepted exactly when
`now - lastMsg > 5000` (strictly greater); with the initial `lastMsg = 0`,
offers at `t = 0` and `t = 5000` are both dropped, while offers at
`t = 5001` and `t = 10002` are both accepted. -/
theorem gate_strict_interval :
    (∀ now lastMsg : ℤ, gateAccepts now lastMsg = true ↔ now - lastMsg > minIntervalMs) ∧
    runOffers 0 [0, 5000] = [false, false] ∧
    runOffers 0 [5001, 10002] = [true, true] := by
  refine ⟨fun now lastMsg => ?_, by decide, by decide⟩
  simp [gateAccepts]

/-- Witness for C1 (amended) at a concrete boundary-crossing input. -/
theorem gate_strict_interval_witness : gateAccepts 5001 0 = true :=
  (gate_strict_interval.1 5001 0).mpr (by decide)

/-- C5: publishing is all-or-nothing per cycle.  When the gate accepts, the
six metrics are published, in order, to `deviceId ++ suffix` topics with
frequencies formatted to 2 fractional digits and RMS values to 4; when the
gate rejects, nothing at all is published. -/
theorem publish_all_or_nothing (now lastMsg : ℤ) (fx fy fz rx ry rz : ℚ) :
    (gateAccepts now lastMsg = true →
      (loopPublish now lastMsg fx fy fz rx ry rz).2 =
        [(deviceId ++ "/freq_x", dtostrf fx 2),
         (deviceId ++ "/freq_y", dtostrf fy 2),
         (deviceId ++ "/freq_z", dtostrf fz 2),
         (deviceId ++ "/rms_x", dtostrf rx 4),
         (deviceId ++ "/rms_y", dtostrf ry 4),
         (deviceId ++ "/rms_z", dtostrf rz 4)]) ∧
    (gateAccepts now lastMsg = false →
      (loopPublish now lastMsg fx fy fz rx ry rz).2 = []) := by
  constructor
  · intro h
    simp only [loopPublish, h, if_true]
    rfl
  · intro h
    simp [loopPublish, h]

/-- Witness for C5: one accepted and one rejected concrete attempt. -/
theorem publish_all_or_nothing_witness :
    (loopPublish 6000 0 1 1 1 1 1 1).2 =
      [(deviceId ++ "/freq_x", dtostrf 1 2),
       (deviceId ++ "/freq_y", dtostrf 1 2),
       (deviceId ++ "/freq_z", dtostrf 1 2),
       (deviceId ++ "/rms_x", dtostrf 1 4),
       (deviceId ++ "/rms_y", dtostrf 1 4),
       (deviceId ++ "/rms_z", dtostrf 1 4)] ∧
    (loopPublish 4000 0 1 1 1 1 1 1).2 = [] :=
  ⟨(publish_all_or_nothing 6000 0 1 1 1 1 1 1).1 (by decide),
   (publish_all_or_nothing 4000 0 1 1 1 1 1 1).2 (by decide)⟩

/-- C6: `lastMsg` becomes `now` exactly when the batch is accepted; on a
rate-limited drop the gate state is unchanged (and nothing is sent). -/
theorem gate_update_only_on_accept (now lastMsg : ℤ) (fx fy fz rx ry rz : ℚ) :
    (gateAccepts now lastMsg = true →
      (loopPublish now lastMsg fx fy fz rx ry rz).1 = now) ∧
    (gateAccepts now lastMsg = false →
      (loopPublish now lastMsg fx fy fz rx ry rz).1 = lastMsg ∧
        (loopPublish now lastMsg fx fy fz rx ry rz).2 = []) := by
  constructor
  · intro h; simp [loopPublish, h]
  · intro h; simp [loopPublish, h]

/-- Witness for C6 at concrete accepted and dropped attempts. -/
theorem gate_update_only_on_accept_witness :
    (loopPublish 6000 0 1 1 1 1 1 1).1 = 6000 ∧
      (loopPublish 4000 0 1 1 1 1 1 1).1 = 0 ∧
      (loopPublish 4000 0 1 1 1 1 1 1).2 = [] :=
  ⟨(gate_update_only_on_accept 6000 0 1 1 1 1 1 1).1 (by decide),
   ((gate_update_only_on_accept 4000 0 1 1 1 1 1 1).2 (by decide)).1,
   ((gate_update_only_on_accept 4000 0 1 1 1 1 1 1).2 (by decide)).2⟩

/-- C9: `calculate_sampling_rate` is total; it returns 0 when the measured
duration is 0 (instead of dividing by zero), and otherwise the number of
points divided by the duration in seconds, i.e. `1000 * num_points / duration`. -/
theorem sampling_rate_total (num_points duration_ms : ℤ) :
    (duration_ms = 0 → calculate_sampling_rate num_points duration_ms = 0) ∧
    (duration_ms ≠ 0 →
      calculate_sampling_rate num_points duration_ms =
        1000 * (num_points : ℚ) / (duration_ms : ℚ)) := by
  constructor
  · intro h; simp [calculate_sampling_rate, h]
  · intro h
    simp only [calculate_sampling_rate, h, if_false]
    rw [div_div_eq_mul_div]
    ring

/-- Witness for C9: both branches at concrete inputs. -/
theorem sampling_rate_total_witness :
    calculate_sampling_rate 128 0 = 0 ∧
      calculate_sampling_rate 128 2000 = 1000 * (128 : ℚ) / (2000 : ℚ) :=
  ⟨(sampling_rate_total 128 0).1 rfl,
   (sampling_rate_total 128 2000).2 (by decide)⟩

/-! ### Claim theorems: peak search and RMS -/

/-- C2: provided some scanned bin has positive magnitude, the peak search of
`perform_fft` scans exactly bins `1 .. 63` (`samples/2 - 1 = 63`, the DC bin 0
excluded), returns an index in that range attaining the maximum scanned
magnitude, breaks ties towards the earliest-seen index (every strictly
earlier scanned bin has strictly smaller magnitude), and the reported
dominant frequency is `peak_index * actual_sampling_rate / samples`. -/
theorem peak_scan_spec (mags : ℕ → ℚ) (rate : ℚ)
    (hpos : ∃ i, 1 ≤ i ∧ i < 64 ∧ 0 < mags i) :
    (1 ≤ (peakSearch mags).1 ∧ (peakSearch mags).1 < 64) ∧
    (peakSearch mags).2 = mags (peakSearch mags).1 ∧
    (∀ i, 1 ≤ i → i < 64 → mags i ≤ mags (peakSearch mags).1) ∧
    (∀ j, 1 ≤ j → j < (peakSearch mags).1 → mags j < mags (peakSearch mags).1) ∧
    dominantFrequency mags rate = ((peakSearch mags).1 : ℚ) * rate / 128 := by
  obtain ⟨i0, hi1, hi2, hi3⟩ := hpos
  have hsearch : peakSearch mags = peakFold mags (0, 0) (List.range' 1 63) := rfl
  have hmem0 : i0 ∈ List.range' 1 63 := List.mem_range'_1.mpr ⟨hi1, by omega⟩
  have hle := peakFold_le mags (List.range' 1 63) (0, 0)
  have hpos2 : (0 : ℚ) < (peakFold mags (0, 0) (List.range' 1 63)).2 :=
    lt_of_lt_of_le hi3 (hle.2 i0 hmem0)
  have hne : peakFold mags (0, 0) (List.range' 1 63) ≠ (0, 0) := by
    intro h
    rw [h] at hpos2
    exact lt_irrefl 0 hpos2
  rcases peakFold_eq_or mags (List.range' 1 63) (0, 0) with h | ⟨_, hmem, hval⟩
  · exact absurd h hne
  · have hrange := List.mem_range'_1.mp hmem
    refine ⟨⟨hrange.1, by rw [hsearch]; omega⟩, ?_, ?_, ?_, ?_⟩
    · rw [hsearch]; exact hval
    · intro i h1 h2
      have := hle.2 i (List.mem_range'_1.mpr ⟨h1, by omega⟩)
      rw [hval] at this
      rw [hsearch]
      exact this
    · intro j h1 h2
      have := peakFold_first mags 63 1 (0, 0) hne j h1 (by rw [hsearch] at h2; exact h2)
      rw [hval] at this
      rw [hsearch]
      exact this
    · show ((peakSearch mags).1 : ℚ) * rate / (samples : ℚ) = _
      norm_num [samples]

/-- Witness for C2 at a concrete magnitude array with a single spike at bin 5. -/
theorem peak_scan_spec_witness :
    (1 ≤ (peakSearch fun i => if i = 5 then (2 : ℚ) else 0).1 ∧
        (peakSearch fun i => if i = 5 then (2 : ℚ) else 0).1 < 64) ∧
      (peakSearch fun i => if i = 5 then (2 : ℚ) else 0).2 =
        (fun i => if i = 5 then (2 : ℚ) else 0)
          (peakSearch fun i => if i = 5 then (2 : ℚ) else 0).1 ∧
      (∀ i, 1 ≤ i → i < 64 →
        (fun i => if i = 5 then (2 : ℚ) else 0) i ≤
          (fun i => if i = 5 then (2 : ℚ) else 0)
            (peakSearch fun i => if i = 5 then (2 : ℚ) else 0).1) ∧
      (∀ j, 1 ≤ j → j < (peakSearch fun i => if i = 5 then (2 : ℚ) else 0).1 →
        (fun i => if i = 5 then (2 : ℚ) else 0) j <
          (fun i => if i = 5 then (2 : ℚ) else 0)
            (peakSearch fun i => if i = 5 then (2 : ℚ) else 0).1) ∧
      dominantFrequency (fun i => if i = 5 then (2 : ℚ) else 0) 1 =
        ((peakSearch fun i => if i = 5 then (2 : ℚ) else 0).1 : ℚ) * 1 / 128 :=
  peak_scan_spec (fun i => if i = 5 then (2 : ℚ) else 0) 1 ⟨5, by decide⟩

/-- C10: whatever the magnitude array, for a positive realized sampling rate
the dominant frequency of `perform_fft` is nonnegative, at most
`63 * rate / 128`, and strictly below the Nyquist frequency `rate / 2`. -/
theorem dominant_frequency_range (mags : ℕ → ℚ) (rate : ℚ) (hrate : 0 < rate) :
    0 ≤ dominantFrequency mags rate ∧
      dominantFrequency mags rate ≤ 63 * rate / 128 ∧
      dominantFrequency mags rate < rate / 2 := by
  have hk : (peakSearch mags).1 ≤ 63 := by
    rcases peakFold_eq_or mags (List.range' 1 63) (0, 0) with h | ⟨_, hmem, _⟩
    · show (peakFold mags (0, 0) (List.range' 1 63)).1 ≤ 63
      rw [h]
      exact Nat.zero_le 63
    · have := (List.mem_range'_1.mp hmem).2
      show (peakFold mags (0, 0) (List.range' 1 63)).1 ≤ 63
      omega
  have hfreq : dominantFrequency mags rate = ((peakSearch mags).1 : ℚ) * rate / 128 := by
    show ((peakSearch mags).1 : ℚ) * rate / (samples : ℚ) = _
    norm_num [samples]
  have hkq : ((peakSearch mags).1 : ℚ) ≤ 63 := by exact_mod_cast hk
  have hk0 : (0 : ℚ) ≤ ((peakSearch mags).1 : ℚ) := Nat.cast_nonneg _
  rw [hfreq]
  refine ⟨?_, ?_, ?_⟩
  · exact div_nonneg (mul_nonneg hk0 (le_of_lt hrate)) (by norm_num)
  · have : ((peakSearch mags).1 : ℚ) * rate ≤ 63 * rate :=
      mul_le_mul_of_nonneg_right hkq (le_of_lt hrate)
    linarith
  · have : ((peakSearch mags).1 : ℚ) * rate ≤ 63 * rate :=
      mul_le_mul_of_nonneg_right hkq (le_of_lt hrate)
    linarith

/-- Witness for C10 at the all-zero magnitude array and rate 1. -/
theorem dominant_frequency_range_witness :
    0 ≤ dominantFrequency (fun _ => (0 : ℚ)) 1 ∧
      dominantFrequency (fun _ => (0 : ℚ)) 1 ≤ 63 * 1 / 128 ∧
      dominantFrequency (fun _ => (0 : ℚ)) 1 < 1 / 2 :=
  dominant_frequency_range (fun _ => 0) 1 (by decide)

/-- C3: the RMS of a constant signal of value `c` over `n > 0` raw samples is
exactly `|c|`: the computation uses the raw, non-detrended samples, so the
constant (DC) offset contributes its full energy. -/
theorem rms_constant_signal (c : ℚ) (n : ℕ) (hn : 0 < n) :
    calculate_rms (List.replicate n c) = |(c : ℝ)| := by
  have hlen : (List.replicate n c).length = n := List.length_replicate n c
  have hmap : (List.replicate n c).map (fun x => x * x) = List.replicate n (c * c) :=
    List.map_replicate
  simp only [calculate_rms, hlen, hmap]
  rw [if_neg (by omega), List.sum_replicate, nsmul_eq_mul]
  have hq : ((n : ℚ) * (c * c)) / (n : ℚ) = c * c := by
    rw [mul_comm, mul_div_assoc, div_self (by exact_mod_cast hn.ne'), mul_one]
  rw [hq]
  push_cast
  exact Real.sqrt_mul_self_eq_abs _

/-- Witness for C3 at the concrete constant signal 3 repeated 4 times. -/
theorem rms_constant_signal_witness :
    0 < 4 ∧ calculate_rms (List.replicate 4 (3 : ℚ)) = |((3 : ℚ) : ℝ)| :=
  ⟨by decide, rms_constant_signal 3 4 (by decide)⟩

/-- C4: for the all-zero input signal the RMS is 0, the detrended signal is
still all zero, the peak search over the resulting all-zero magnitude array
leaves the accumulator at `(0, 0)` (index 0), and the reported dominant
frequency is 0 for every sampling rate. -/
theorem all_zero_signal_behavior :
    calculate_rms (List.replicate samples 0) = 0 ∧
      detrend (List.replicate samples 0) = List.replicate samples 0 ∧
      peakSearch (fun _ => (0 : ℚ)) = (0, 0) ∧
      ∀ rate : ℚ, dominantFrequency (fun _ => (0 : ℚ)) rate = 0 := by
  have hpeak : peakSearch (fun _ => (0 : ℚ)) = (0, 0) := by
    rcases peakFold_eq_or (fun _ => (0 : ℚ)) (List.range' 1 63) (0, 0) with h | ⟨hlt, _, hval⟩
    · exact h
    · rw [hval] at hlt
      exact absurd hlt (lt_irrefl 0)
  refine ⟨?_, ?_, hpeak, ?_⟩
  · simp [calculate_rms, samples]
  · simp [detrend]
  · intro rate
    show ((peakSearch (fun _ => (0 : ℚ))).1 : ℚ) * rate / (samples : ℚ) = 0
    rw [hpeak]
    norm_num

/-! ### Claim theorems: connectivity and start-up -/

theorem reconnectTrace_zero (success : ℕ → Bool) (k : ℕ) :
    reconnectTrace success 0 k = none := rfl

theorem reconnectTrace_succ (success : ℕ → Bool) (fuel k : ℕ) :
    reconnectTrace success (fuel + 1) k =
      if success k then
        some [Action.connectAttempt, Action.subscribe "esp32_htj/output"]
      else
        (reconnectTrace success fuel (k + 1)).map
          (fun rest => Action.connectAttempt :: Action.delayMs 5000 :: rest) := rfl

theorem setupWifiTrace_zero (wifiUp : ℕ → Bool) (k : ℕ) :
    setupWifiTrace wifiUp 0 k = none := rfl

theorem setupWifiTrace_succ (wifiUp : ℕ → Bool) (fuel k : ℕ) :
    setupWifiTrace wifiUp (fuel + 1) k =
      if wifiUp k then some []
      else
        (setupWifiTrace wifiUp fuel (k + 1)).map
          (fun rest => Action.delayMs 500 :: rest) := rfl

/-- C7: the WiFi-connect loop and the MQTT-reconnect loop return only once
connected, never returning failure: with no successful attempt they loop
forever (for every fuel bound they are still running); when the reconnect
loop does return, some attempt succeeded, the loop (re-)subscribed to the
fixed control topic `esp32_htj/output` as its last action before returning,
and every other action was a connection attempt or the fixed 5000 ms retry
delay; when the WiFi loop returns, its only actions were the fixed 500 ms
delays between link checks. -/
theorem ensure_ready_spec (success wifiUp : ℕ → Bool) :
    ((∀ k, success k = false) → ∀ fuel k, reconnectTrace success fuel k = none) ∧
    (∀ fuel k tr, reconnectTrace success fuel k = some tr →
      tr.getLast? = some (Action.subscribe "esp32_htj/output") ∧
      (∃ j, j < fuel ∧ success (k + j) = true) ∧
      ∀ a ∈ tr, a = Action.connectAttempt ∨ a = Action.delayMs 5000 ∨
        a = Action.subscribe "esp32_htj/output") ∧
    ((∀ k, wifiUp k = false) → ∀ fuel k, setupWifiTrace wifiUp fuel k = none) ∧
    (∀ fuel k tr, setupWifiTrace wifiUp fuel k = some tr →
      ∀ a ∈ tr, a = Action.delayMs 500) := by
  refine ⟨?_, ?_, ?_, ?_⟩
  · intro hall fuel
    induction fuel with
    | zero => intro k; rfl
    | succ n ih =>
      intro k
      rw [reconnectTrace_succ, hall k, if_neg (by simp), ih (k + 1)]
      rfl
  · intro fuel
    induction fuel with
    | zero =>
      intro k tr h
      rw [reconnectTrace_zero] at h
      exact absurd h (by simp)
    | succ n ih =>
      intro k tr h
      rw [reconnectTrace_succ] at h
      by_cases hs : success k
      · rw [if_pos hs] at h
        obtain rfl : [Action.connectAttempt, Action.subscribe "esp32_htj/output"] = tr :=
          Option.some_injective _ h
        refine ⟨rfl, ⟨0, Nat.zero_lt_succ n, by simpa using hs⟩, ?_⟩
        intro a ha
        rcases List.mem_cons.mp ha with rfl | ha
        · exact Or.inl rfl
        · rcases List.mem_cons.mp ha with rfl | ha
          · exact Or.inr (Or.inr rfl)
          · exact absurd ha (List.not_mem_nil a)
      · rw [if_neg hs] at h
        obtain ⟨rest, hrest, rfl⟩ := Option.map_eq_some'.mp h
        obtain ⟨hlast, ⟨j, hj1, hj2⟩, hmem⟩ := ih (k + 1) rest hrest
        refine ⟨?_, ⟨j + 1, by omega, by rw [show k + (j + 1) = k + 1 + j by omega]; exact hj2⟩, ?_⟩
        · cases rest with
          | nil => exact absurd hlast (by simp)
          | cons r rs =>
            rw [List.getLast?_cons_cons, List.getLast?_cons_cons]
            exact hlast
        · intro a ha
          rcases List.mem_cons.mp ha with rfl | ha
          · exact Or.inl rfl
          · rcases List.mem_cons.mp ha with rfl | ha
            · exact Or.inr (Or.inl rfl)
            · exact hmem a ha
  · intro hall fuel
    induction fuel with
    | zero => intro k; rfl
    | succ n ih =>
      intro k
      rw [setupWifiTrace_succ, hall k, if_neg (by simp), ih (k + 1)]
      rfl
  · intro fuel
    induction fuel with
    | zero =>
      intro k tr h
      rw [setupWifiTrace_zero] at h
      exact absurd h (by simp)
    | succ n ih =>
      intro k tr h
      rw [setupWifiTrace_succ] at h
      by_cases hs : wifiUp k
      · rw [if_pos hs] at h
        obtain rfl : ([] : List Action) = tr := Option.some_injective _ h
        intro a ha
        exact absurd ha (List.not_mem_nil a)
      · rw [if_neg hs] at h
        obtain ⟨rest, hrest, rfl⟩ := Option.map_eq_some'.mp h
        intro a ha
        rcases List.mem_cons.mp ha with rfl | ha
        · rfl
        · exact ih (k + 1) rest hrest a ha

/-- Witness for C7: with never-succeeding attempts both loops are still
running at fuel 5, and with an immediately successful attempt the reconnect
loop returns with the subscription to the control topic as its last action. -/
theorem ensure_ready_spec_witness :
    reconnectTrace (fun _ => false) 5 0 = none ∧
      setupWifiTrace (fun _ => false) 5 0 = none ∧
      ([Action.connectAttempt, Action.subscribe "esp32_htj/output"] :
          List Action).getLast? = some (Action.subscribe "esp32_htj/output") :=
  ⟨(ensure_ready_spec (fun _ => false) (fun _ => false)).1 (fun _ => rfl) 5 0,
   (ensure_ready_spec (fun _ => false) (fun _ => false)).2.2.1 (fun _ => rfl) 5 0,
   ((ensure_ready_spec (fun _ => true) (fun _ => true)).2.1 1 0
      [Action.connectAttempt, Action.subscribe "esp32_htj/output"] rfl).1⟩

/-- C8: when `mpu.begin()` fails, `setup` enters `while (1) { delay(10); }`
and never completes (every fuel bound leaves it still running), so the
acquisition/publish loop is never reached and initialization is never
retried; when `mpu.begin()` succeeds, `setup` proceeds. -/
theorem sensor_init_failure_halts :
    (∀ fuel, setupSensorGate false fuel = none) ∧
      ∀ fuel, setupSensorGate true fuel = some () := by
  have hh : ∀ f, haltLoop f = none := by
    intro f
    induction f with
    | zero => rfl
    | succ n ih => exact ih
  exact ⟨fun fuel => hh fuel, fun fuel => rfl⟩

end MySensor
